import Mathlib

/-!
Shallow embedding of the mahmudsudo/circuit_breaker Rust crate.

The repository contains two near-identical copies of the circuit breaker:

* src/src/circuit_breaker.rs — the full implementation with the three
  transition callbacks (on_open, on_close, on_half_open), the
  handle_failure / handle_success primitives and a state() probe that
  performs the Open → HalfOpen timeout transition.  The integration tests
  (tests/integration_tests.rs) exercise exactly this API, so this copy is
  embedded as the primary model, namespace CB.
* src/src/lib.rs — an inline duplicate without callbacks, whose execute
  resets the failure counter on every success and whose state() is a pure
  read.  It is embedded in namespace LibCB where a claim cites it.

Modelling conventions:

* Instant / Duration are modelled as Nat time stamps; elapsed time is
  truncated subtraction (now - t), and the source comparison
  last_failure_time.elapsed() >= reset_timeout becomes
  now - t >= reset_timeout.
* The u32 failure counter is modelled as Nat: no claim involves anywhere
  near 2^32 operations, so wrap-around never matters.
* The callback slots Option<Arc<dyn Fn()>> are modelled by a Bool (whether
  a callback is registered); an operation additionally returns the list of
  callback invocations it performed (CallbackEvent values), which is empty
  at a slot whose Bool is false, mirroring the `if let Some(ref callback)`
  guards.
* Each mutating operation also returns the list of successive values
  assigned to the `state` field during the call, so that properties about
  the state-field trajectory (no direct Open → Closed jump) can be stated.
* The wrapped operation FnOnce() -> Result<T, E> is passed as its
  predetermined outcome `f : Except ε τ`; execute reports in `calls` how
  many times it invoked the operation (0 or 1).
* The model is sequential: the Mutex linearizes every critical section,
  and each public operation of the source performs its work in one or two
  critical sections executed in program order, which is exactly the
  order in which this model composes them.
-/

/-- States of the breaker, from src/src/circuit_state.rs. -/
inductive CircuitState where
  | Closed
  | Open
  | HalfOpen
deriving DecidableEq, Repr

/-- Callback invocations observable through the three registered slots. -/
inductive CallbackEvent where
  | onOpenEvt
  | onCloseEvt
  | onHalfOpenEvt
deriving DecidableEq, Repr

namespace CB

/-- The record behind the Mutex in src/src/circuit_breaker.rs (struct
CircuitBreakerState).  Callback slots are modelled by whether they are
registered. -/
structure CircuitBreakerState where
  state : CircuitState
  failures : Nat
  last_failure_time : Option Nat
  on_open : Bool
  on_close : Bool
  on_half_open : Bool
deriving DecidableEq, Repr

/-- The public struct CircuitBreaker of src/src/circuit_breaker.rs. -/
structure CircuitBreaker where
  failure_threshold : Nat
  reset_timeout : Nat
  state : CircuitBreakerState
deriving DecidableEq, Repr

/-- CircuitBreaker::new — Closed, zero failures, no failure time, no
callbacks registered. -/
def CircuitBreaker.new (failure_threshold reset_timeout : Nat) : CircuitBreaker :=
  { failure_threshold := failure_threshold
    reset_timeout := reset_timeout
    state :=
      { state := CircuitState.Closed
        failures := 0
        last_failure_time := none
        on_open := false
        on_close := false
        on_half_open := false } }

/-- CircuitBreaker::trip — set the state field to Open and invoke on_open
if registered.  Returns (new record, callback invocations, state-field
assignments). -/
def trip (s : CircuitBreakerState) :
    CircuitBreakerState × List CallbackEvent × List CircuitState :=
  ({ s with state := CircuitState.Open },
   if s.on_open then [CallbackEvent.onOpenEvt] else [],
   [CircuitState.Open])

/-- CircuitBreaker::reset — set the state field to Closed, zero the
failure counter, invoke on_close if registered. -/
def reset (s : CircuitBreakerState) :
    CircuitBreakerState × List CallbackEvent × List CircuitState :=
  ({ s with state := CircuitState.Closed, failures := 0 },
   if s.on_close then [CallbackEvent.onCloseEvt] else [],
   [CircuitState.Closed])

/-- CircuitBreaker::handle_failure — increment the counter, record the
failure time, and trip to Open once the counter reaches the threshold. -/
def CircuitBreaker.handle_failure (cb : CircuitBreaker) (now : Nat) :
    CircuitBreaker × List CallbackEvent × List CircuitState :=
  let s := { cb.state with
              failures := cb.state.failures + 1
              last_failure_time := some now }
  if s.failures ≥ cb.failure_threshold then
    let r := trip s
    ({ cb with state := r.1 }, r.2.1, r.2.2)
  else
    ({ cb with state := s }, [], [])

/-- CircuitBreaker::handle_success — zero the counter; if the state is
HalfOpen, reset to Closed (firing on_close). -/
def CircuitBreaker.handle_success (cb : CircuitBreaker) :
    CircuitBreaker × List CallbackEvent × List CircuitState :=
  let s := { cb.state with failures := 0 }
  if s.state = CircuitState.HalfOpen then
    let r := reset s
    ({ cb with state := r.1 }, r.2.1, r.2.2)
  else
    ({ cb with state := s }, [], [])

/-- CircuitBreaker::state — if Open and the reset timeout has elapsed
since the recorded last failure, transition to HalfOpen (firing
on_half_open), then return the current state. -/
def CircuitBreaker.stateOp (cb : CircuitBreaker) (now : Nat) :
    CircuitState × CircuitBreaker × List CallbackEvent × List CircuitState :=
  if cb.state.state = CircuitState.Open then
    match cb.state.last_failure_time with
    | some t =>
      if now - t ≥ cb.reset_timeout then
        (CircuitState.HalfOpen,
         { cb with state := { cb.state with state := CircuitState.HalfOpen } },
         if cb.state.on_half_open then [CallbackEvent.onHalfOpenEvt] else [],
         [CircuitState.HalfOpen])
      else
        (cb.state.state, cb, [], [])
    | none => (cb.state.state, cb, [], [])
  else
    (cb.state.state, cb, [], [])

/-- Result surfaced by execute: the success value of the operation, the
error of the operation re-wrapped, or the CircuitOpen rejection. -/
inductive ExecResult (τ ε : Type) where
  | ok (v : τ)
  | opFailed (e : ε)
  | circuitOpen
deriving DecidableEq, Repr

/-- Everything observable about one execute call: its returned value, the
breaker afterwards, the callback invocations, how many times the wrapped
operation was invoked, and the state-field assignments. -/
structure ExecOut (τ ε : Type) where
  result : ExecResult τ ε
  cb : CircuitBreaker
  events : List CallbackEvent
  calls : Nat
  writes : List CircuitState
deriving DecidableEq, Repr

/-- CircuitBreaker::execute — under the lock: if Open with a recorded
last failure, either transition to HalfOpen (timeout elapsed, firing
on_half_open) or return CircuitOpen without invoking the operation;
otherwise fall through.  Then invoke the operation once; on success call
handle_success when the post-check state was HalfOpen; on failure call
handle_failure. -/
def CircuitBreaker.execute {τ ε : Type} (cb : CircuitBreaker) (now : Nat)
    (f : Except ε τ) : ExecOut τ ε :=
  let checked : Option (CircuitBreaker × List CallbackEvent × List CircuitState) :=
    match cb.state.state, cb.state.last_failure_time with
    | CircuitState.Open, some t =>
      if now - t ≥ cb.reset_timeout then
        some ({ cb with state := { cb.state with state := CircuitState.HalfOpen } },
              if cb.state.on_half_open then [CallbackEvent.onHalfOpenEvt] else [],
              [CircuitState.HalfOpen])
      else
        none
    | _, _ => some (cb, [], [])
  match checked with
  | none =>
    { result := ExecResult.circuitOpen, cb := cb, events := [], calls := 0, writes := [] }
  | some (cb1, evs1, ws1) =>
    let current_state := cb1.state.state
    match f with
    | Except.ok v =>
      if current_state = CircuitState.HalfOpen then
        let r := cb1.handle_success
        { result := ExecResult.ok v, cb := r.1, events := evs1 ++ r.2.1,
          calls := 1, writes := ws1 ++ r.2.2 }
      else
        { result := ExecResult.ok v, cb := cb1, events := evs1,
          calls := 1, writes := ws1 }
    | Except.error e =>
      let r := cb1.handle_failure now
      { result := ExecResult.opFailed e, cb := r.1, events := evs1 ++ r.2.1,
        calls := 1, writes := ws1 ++ r.2.2 }

/-- CircuitBreaker::set_on_open — register the on_open callback slot. -/
def CircuitBreaker.set_on_open (cb : CircuitBreaker) : CircuitBreaker :=
  { cb with state := { cb.state with on_open := true } }

/-- CircuitBreaker::set_on_close — register the on_close callback slot. -/
def CircuitBreaker.set_on_close (cb : CircuitBreaker) : CircuitBreaker :=
  { cb with state := { cb.state with on_close := true } }

/-- CircuitBreaker::set_on_half_open — register the on_half_open slot. -/
def CircuitBreaker.set_on_half_open (cb : CircuitBreaker) : CircuitBreaker :=
  { cb with state := { cb.state with on_half_open := true } }

end CB

namespace LibCB

/-- The record behind the Mutex of the duplicate implementation inlined in
src/src/lib.rs (its struct CircuitBreakerState has no callback slots). -/
structure CircuitBreakerState where
  state : CircuitState
  failures : Nat
  last_failure_time : Option Nat
deriving DecidableEq, Repr

/-- The duplicate struct CircuitBreaker of src/src/lib.rs. -/
structure CircuitBreaker where
  failure_threshold : Nat
  reset_timeout : Nat
  state : CircuitBreakerState
deriving DecidableEq, Repr

/-- CircuitBreaker::new of src/src/lib.rs. -/
def CircuitBreaker.new (failure_threshold reset_timeout : Nat) : CircuitBreaker :=
  { failure_threshold := failure_threshold
    reset_timeout := reset_timeout
    state :=
      { state := CircuitState.Closed
        failures := 0
        last_failure_time := none } }

/-- Observable outcome of one execute call of the lib.rs duplicate. -/
structure ExecOut (τ ε : Type) where
  result : CB.ExecResult τ ε
  cb : CircuitBreaker
  calls : Nat
deriving DecidableEq, Repr

/-- CircuitBreaker::execute of src/src/lib.rs — same Open gate as the
primary implementation, but on success it unconditionally zeroes the
failure counter and sets the state to Closed, and on failure it performs
the increment/record/trip logic inline (no callbacks exist here). -/
def CircuitBreaker.execute {τ ε : Type} (cb : CircuitBreaker) (now : Nat)
    (f : Except ε τ) : ExecOut τ ε :=
  let checked : Option CircuitBreaker :=
    match cb.state.state, cb.state.last_failure_time with
    | CircuitState.Open, some t =>
      if now - t ≥ cb.reset_timeout then
        some { cb with state := { cb.state with state := CircuitState.HalfOpen } }
      else
        none
    | _, _ => some cb
  match checked with
  | none =>
    { result := CB.ExecResult.circuitOpen, cb := cb, calls := 0 }
  | some cb1 =>
    match f with
    | Except.ok v =>
      { result := CB.ExecResult.ok v
        cb := { cb1 with state :=
                  { cb1.state with failures := 0, state := CircuitState.Closed } }
        calls := 1 }
    | Except.error e =>
      let s := { cb1.state with
                  failures := cb1.state.failures + 1
                  last_failure_time := some now }
      if s.failures ≥ cb1.failure_threshold then
        { result := CB.ExecResult.opFailed e
          cb := { cb1 with state := { s with state := CircuitState.Open } }
          calls := 1 }
      else
        { result := CB.ExecResult.opFailed e, cb := { cb1 with state := s }, calls := 1 }

/-- CircuitBreaker::state of src/src/lib.rs — a pure read, unlike the
state() of the primary implementation. -/
def CircuitBreaker.stateOp (cb : CircuitBreaker) : CircuitState :=
  cb.state.state

end LibCB

namespace CB

/-- The short-circuit condition of execute: the breaker is Open with a
recorded last failure whose elapsed time is still below the reset
timeout. -/
def shortCircuits (cb : CircuitBreaker) (now : Nat) : Bool :=
  decide (cb.state.state = CircuitState.Open) &&
    (match cb.state.last_failure_time with
     | some t => decide (now - t < cb.reset_timeout)
     | none => false)

/-- Iterate handle_failure once per timestamp in the list. -/
def applyFails (cb : CircuitBreaker) : List Nat → CircuitBreaker
  | [] => cb
  | t :: ts => applyFails (cb.handle_failure t).1 ts

/-- Iterate a failing execute call once per timestamp in the list. -/
def applyFailExecs (cb : CircuitBreaker) : List Nat → CircuitBreaker
  | [] => cb
  | t :: ts => applyFailExecs (cb.execute t (Except.error () : Except Unit Unit)).cb ts

/-- One public operation of the breaker together with the data it needs
(the clock reading, and for execute the outcome of the wrapped
operation).  Except Unit Unit suffices for the state machine: the
evolution of the breaker depends on the outcome only through its
success/failure constructor. -/
inductive Op where
  | exec (now : Nat) (f : Except Unit Unit)
  | probe (now : Nat)
  | fail (now : Nat)
  | succ
  | setOpen
  | setClose
  | setHalfOpen
deriving Repr

/-- Apply one public operation, returning the breaker afterwards, the
callback invocations, and the successive values assigned to the state
field during the operation. -/
def applyOp (cb : CircuitBreaker) : Op → CircuitBreaker × List CallbackEvent × List CircuitState
  | Op.exec now f =>
    let r := cb.execute now f
    (r.cb, r.events, r.writes)
  | Op.probe now =>
    let r := cb.stateOp now
    (r.2.1, r.2.2.1, r.2.2.2)
  | Op.fail now => cb.handle_failure now
  | Op.succ => cb.handle_success
  | Op.setOpen => (cb.set_on_open, [], [])
  | Op.setClose => (cb.set_on_close, [], [])
  | Op.setHalfOpen => (cb.set_on_half_open, [], [])

/-- Run a list of public operations, collecting every assignment made to
the state field along the way. -/
def runWrites (cb : CircuitBreaker) : List Op → List CircuitState
  | [] => []
  | o :: os =>
    let r := applyOp cb o
    r.2.2 ++ runWrites r.1 os

/-- Run a list of public operations, returning the final breaker. -/
def runOps (cb : CircuitBreaker) : List Op → CircuitBreaker
  | [] => cb
  | o :: os => runOps (applyOp cb o).1 os

/-- One adjacent step of a state-field trajectory is forbidden exactly
when it jumps from Open directly to Closed. -/
def okStep (a b : CircuitState) : Bool :=
  !(decide (a = CircuitState.Open) && decide (b = CircuitState.Closed))

/-- Every adjacent pair of the trajectory prev :: l satisfies okStep. -/
def noOTCfrom : CircuitState → List CircuitState → Bool
  | _, [] => true
  | prev, b :: rest => okStep prev b && noOTCfrom b rest

/-- A trajectory of state-field values never has Closed immediately after
Open. -/
def noOpenToClosed : List CircuitState → Bool
  | [] => true
  | a :: rest => noOTCfrom a rest

/-- Last value of a write list, defaulting to the preceding value. -/
def lastW (prev : CircuitState) : List CircuitState → CircuitState
  | [] => prev
  | x :: xs => lastW x xs

/-- Breakers reachable from a fresh construction by the public API:
execute, state, handle_failure, handle_success and the three callback
setters, at arbitrary clock readings and operation outcomes. -/
inductive Reachable : CircuitBreaker → Prop where
  | new (n t : Nat) : Reachable (CircuitBreaker.new n t)
  | exec {cb : CircuitBreaker} (now : Nat) (f : Except Unit Unit) :
      Reachable cb → Reachable (cb.execute now f).cb
  | probe {cb : CircuitBreaker} (now : Nat) :
      Reachable cb → Reachable (cb.stateOp now).2.1
  | fail {cb : CircuitBreaker} (now : Nat) :
      Reachable cb → Reachable (cb.handle_failure now).1
  | succ {cb : CircuitBreaker} :
      Reachable cb → Reachable cb.handle_success.1
  | setOpen {cb : CircuitBreaker} :
      Reachable cb → Reachable cb.set_on_open
  | setClose {cb : CircuitBreaker} :
      Reachable cb → Reachable cb.set_on_close
  | setHalfOpen {cb : CircuitBreaker} :
      Reachable cb → Reachable cb.set_on_half_open

/-- The invariant claimed in the spec: an Open breaker always carries a
recorded last failure time. -/
def OpenHasTime (cb : CircuitBreaker) : Prop :=
  cb.state.state = CircuitState.Open → cb.state.last_failure_time ≠ none

/-- A breaker reached by: new 2 100, register on_open and on_half_open,
two failures (opening the circuit), one recorded success while Open
(zeroing the counter), then a state() poll after the timeout (moving to
HalfOpen).  Its state is HalfOpen with zero failures. -/
def halfOpenZeroFailures : CircuitBreaker :=
  (((((CircuitBreaker.new 2 100).set_on_open.set_on_half_open).handle_failure 0).1.handle_failure
      5).1.handle_success.1.stateOp 200).2.1

/-- C1: execute returns the CircuitOpen rejection exactly when the
breaker is Open with a recorded last failure whose elapsed time is below
the reset timeout; in that case the wrapped operation is not invoked and
the breaker is untouched, and in every other case the operation is
invoked exactly once and its own outcome (success value or wrapped
error) is returned. -/
theorem execute_circuitOpen_iff_shortCircuits {τ ε : Type} (cb : CircuitBreaker) (now : Nat)
    (f : Except ε τ) :
    ((cb.execute now f).result = ExecResult.circuitOpen ↔ shortCircuits cb now = true)
    ∧ (shortCircuits cb now = true →
        (cb.execute now f).calls = 0 ∧ (cb.execute now f).cb = cb)
    ∧ (shortCircuits cb now = false →
        (cb.execute now f).calls = 1 ∧
        (cb.execute now f).result = (match f with
          | Except.ok v => ExecResult.ok v
          | Except.error e => ExecResult.opFailed e)) := by
  cases hs : cb.state.state with
  | Closed =>
    cases hl : cb.state.last_failure_time <;> cases f <;>
      simp [CircuitBreaker.execute, shortCircuits, hs, hl]
  | HalfOpen =>
    cases hl : cb.state.last_failure_time <;> cases f <;>
      simp [CircuitBreaker.execute, shortCircuits, hs, hl,
        CircuitBreaker.handle_success, reset]
  | Open =>
    cases hl : cb.state.last_failure_time with
    | none =>
      cases f <;> simp [CircuitBreaker.execute, shortCircuits, hs, hl]
    | some t =>
      by_cases h : now - t ≥ cb.reset_timeout
      · cases f <;>
          simp [CircuitBreaker.execute, shortCircuits, hs, hl, h,
            CircuitBreaker.handle_success, reset]
      · cases f <;>
          simp [CircuitBreaker.execute, shortCircuits, hs, hl, h] <;> omega

/-- Witness for C1: a breaker opened at time 0 with threshold 1 and
timeout 100, probed at time 5, rejects with CircuitOpen and zero
invocations of the wrapped operation. -/
theorem execute_circuitOpen_iff_shortCircuits_witness :
    (((CircuitBreaker.new 1 100).handle_failure 0).1.execute 5
        (Except.error () : Except Unit Unit)).result = ExecResult.circuitOpen
    ∧ (((CircuitBreaker.new 1 100).handle_failure 0).1.execute 5
        (Except.error () : Except Unit Unit)).calls = 0 := by
  have h := execute_circuitOpen_iff_shortCircuits
    ((CircuitBreaker.new 1 100).handle_failure 0).1 5 (Except.error () : Except Unit Unit)
  exact ⟨h.1.mpr (by decide), (h.2.1 (by decide)).1⟩

/-- C4: a state() call on an Open breaker whose recorded last failure is
at least reset_timeout old moves the state field to HalfOpen, fires
on_half_open exactly once (when registered), leaves every other field
unchanged, and returns HalfOpen. -/
theorem stateOp_open_elapsed_half_opens (cb : CircuitBreaker) (now t : Nat)
    (hs : cb.state.state = CircuitState.Open)
    (hl : cb.state.last_failure_time = some t)
    (ht : now - t ≥ cb.reset_timeout)
    (hcb : cb.state.on_half_open = true) :
    cb.stateOp now =
      (CircuitState.HalfOpen,
       { cb with state := { cb.state with state := CircuitState.HalfOpen } },
       [CallbackEvent.onHalfOpenEvt], [CircuitState.HalfOpen]) := by
  simp [CircuitBreaker.stateOp, hs, hl, ht, hcb]

/-- Witness for C4: a breaker opened at time 0 (threshold 1, timeout
100) with on_half_open registered, probed at time 150, transitions to
HalfOpen and fires on_half_open once. -/
theorem stateOp_open_elapsed_half_opens_witness :
    ((((CircuitBreaker.new 1 100).set_on_half_open.handle_failure 0).1.stateOp 150).1 =
        CircuitState.HalfOpen)
    ∧ ((((CircuitBreaker.new 1 100).set_on_half_open.handle_failure 0).1.stateOp 150).2.2.1 =
        [CallbackEvent.onHalfOpenEvt]) := by
  have h := stateOp_open_elapsed_half_opens
    ((CircuitBreaker.new 1 100).set_on_half_open.handle_failure 0).1 150 0
    (by decide) (by decide) (by decide) (by decide)
  rw [h]
  exact ⟨rfl, rfl⟩

/-- C6: a successful execute call on a HalfOpen breaker returns the
success value of the operation, moves the state to Closed, zeroes the failure
counter, and fires on_close exactly once (when registered). -/
theorem execute_halfOpen_success_closes {τ ε : Type} (cb : CircuitBreaker) (now : Nat) (v : τ)
    (hs : cb.state.state = CircuitState.HalfOpen)
    (hc : cb.state.on_close = true) :
    (cb.execute now (Except.ok v : Except ε τ)).result = ExecResult.ok v
    ∧ (cb.execute now (Except.ok v : Except ε τ)).cb.state.state = CircuitState.Closed
    ∧ (cb.execute now (Except.ok v : Except ε τ)).cb.state.failures = 0
    ∧ (cb.execute now (Except.ok v : Except ε τ)).events = [CallbackEvent.onCloseEvt] := by
  cases hl : cb.state.last_failure_time <;>
    simp [CircuitBreaker.execute, hs, hl, CircuitBreaker.handle_success, reset, hc]

/-- Witness for C6: drive a threshold-1 breaker to HalfOpen (failure at
time 0, poll at time 150), register on_close, then a successful execute
returns the value 42, closes the circuit, zeroes the counter and fires
on_close once. -/
theorem execute_halfOpen_success_closes_witness :
    (((((CircuitBreaker.new 1 100).handle_failure 0).1.stateOp 150).2.1.set_on_close.execute 151
        (Except.ok 42 : Except Unit Nat)).result = ExecResult.ok 42)
    ∧ (((((CircuitBreaker.new 1 100).handle_failure 0).1.stateOp 150).2.1.set_on_close.execute 151
        (Except.ok 42 : Except Unit Nat)).cb.state.state = CircuitState.Closed)
    ∧ (((((CircuitBreaker.new 1 100).handle_failure 0).1.stateOp 150).2.1.set_on_close.execute 151
        (Except.ok 42 : Except Unit Nat)).events = [CallbackEvent.onCloseEvt]) := by
  have h := @execute_halfOpen_success_closes Nat Unit
    ((((CircuitBreaker.new 1 100).handle_failure 0).1.stateOp 150).2.1.set_on_close) 151 42
    (by decide) (by decide)
  exact ⟨h.1, h.2.1, h.2.2.2⟩

/-- Helper: below the threshold, handle_failure only increments the
counter and records the time. -/
theorem handle_failure_below (cb : CircuitBreaker) (now : Nat)
    (h : cb.state.failures + 1 < cb.failure_threshold) :
    (cb.handle_failure now).1 =
      { cb with state := { cb.state with
          failures := cb.state.failures + 1, last_failure_time := some now } } := by
  have h2 : ¬ (cb.state.failures + 1 ≥ cb.failure_threshold) := by omega
  simp [CircuitBreaker.handle_failure, h2]

/-- Helper: once the incremented counter reaches the threshold,
handle_failure trips the breaker to Open. -/
theorem handle_failure_trips (cb : CircuitBreaker) (now : Nat)
    (h : cb.state.failures + 1 ≥ cb.failure_threshold) :
    (cb.handle_failure now) =
      ({ cb with state := { cb.state with
           state := CircuitState.Open,
           failures := cb.state.failures + 1, last_failure_time := some now } },
       if cb.state.on_open then [CallbackEvent.onOpenEvt] else [],
       [CircuitState.Open]) := by
  simp [CircuitBreaker.handle_failure, h, trip]

/-- Helper: a failing execute on a Closed breaker has exactly the state
effect of handle_failure. -/
theorem execute_error_from_closed (cb : CircuitBreaker) (now : Nat)
    (h : cb.state.state = CircuitState.Closed) :
    (cb.execute now (Except.error () : Except Unit Unit)).cb = (cb.handle_failure now).1 := by
  cases hl : cb.state.last_failure_time <;> simp [CircuitBreaker.execute, h, hl]

/-- Helper: while the running count stays strictly below the threshold,
iterated handle_failure keeps the breaker Closed and adds one failure per
call, preserving the threshold. -/
theorem applyFails_below (ts : List Nat) : ∀ cb : CircuitBreaker,
    cb.state.state = CircuitState.Closed →
    cb.state.failures + ts.length < cb.failure_threshold →
    (applyFails cb ts).state.state = CircuitState.Closed
    ∧ (applyFails cb ts).state.failures = cb.state.failures + ts.length
    ∧ (applyFails cb ts).failure_threshold = cb.failure_threshold := by
  induction ts with
  | nil => intro cb hs _; exact ⟨hs, by simp [applyFails], rfl⟩
  | cons t ts ih =>
    intro cb hs hlt
    have h1 : cb.state.failures + 1 < cb.failure_threshold := by
      simp [List.length] at hlt; omega
    have hstep := handle_failure_below cb t h1
    have := ih (cb.handle_failure t).1
      (by rw [hstep]; exact hs) (by rw [hstep]; simp [List.length] at hlt ⊢; omega)
    simp only [applyFails] at *
    refine ⟨this.1, ?_, by rw [this.2.2, hstep]⟩
    rw [this.2.1, hstep]
    simp [List.length]
    omega

/-- Helper: starting Closed with the running count due to land exactly on
the threshold, iterated handle_failure ends with the breaker Open. -/
theorem applyFails_reaches (ts : List Nat) : ∀ cb : CircuitBreaker,
    cb.state.state = CircuitState.Closed →
    cb.state.failures + ts.length = cb.failure_threshold →
    1 ≤ ts.length →
    (applyFails cb ts).state.state = CircuitState.Open := by
  induction ts with
  | nil => intro cb _ _ h; simp at h
  | cons t ts ih =>
    intro cb hs heq _
    by_cases h : cb.state.failures + 1 ≥ cb.failure_threshold
    · have hlen : ts.length = 0 := by simp [List.length] at heq; omega
      have hnil : ts = [] := List.length_eq_zero.mp hlen
      subst hnil
      have hstep := handle_failure_trips cb t h
      simp only [applyFails]
      rw [congrArg Prod.fst hstep]
    · have hstep := handle_failure_below cb t (by omega)
      simp only [applyFails]
      refine ih (cb.handle_failure t).1 (by rw [hstep]; exact hs) ?_ ?_
      · rw [hstep]; simp [List.length] at heq ⊢; omega
      · simp [List.length] at heq; omega

/-- Helper: same as applyFails_below but driving the failures through
failing execute calls. -/
theorem applyFailExecs_below (ts : List Nat) : ∀ cb : CircuitBreaker,
    cb.state.state = CircuitState.Closed →
    cb.state.failures + ts.length < cb.failure_threshold →
    (applyFailExecs cb ts).state.state = CircuitState.Closed
    ∧ (applyFailExecs cb ts).state.failures = cb.state.failures + ts.length
    ∧ (applyFailExecs cb ts).failure_threshold = cb.failure_threshold := by
  induction ts with
  | nil => intro cb hs _; exact ⟨hs, by simp [applyFailExecs], rfl⟩
  | cons t ts ih =>
    intro cb hs hlt
    have h1 : cb.state.failures + 1 < cb.failure_threshold := by
      simp [List.length] at hlt; omega
    have hstep := execute_error_from_closed cb t hs
    have hstep2 := handle_failure_below cb t h1
    have := ih (cb.execute t (Except.error () : Except Unit Unit)).cb
      (by rw [hstep, hstep2]; exact hs)
      (by rw [hstep, hstep2]; simp [List.length] at hlt ⊢; omega)
    simp only [applyFailExecs] at *
    refine ⟨this.1, ?_, by rw [this.2.2, hstep, hstep2]⟩
    rw [this.2.1, hstep, hstep2]
    simp [List.length]
    omega

/-- Helper: same as applyFails_reaches but driving the failures through
failing execute calls. -/
theorem applyFailExecs_reaches (ts : List Nat) : ∀ cb : CircuitBreaker,
    cb.state.state = CircuitState.Closed →
    cb.state.failures + ts.length = cb.failure_threshold →
    1 ≤ ts.length →
    (applyFailExecs cb ts).state.state = CircuitState.Open := by
  induction ts with
  | nil => intro cb _ _ h; simp at h
  | cons t ts ih =>
    intro cb hs heq _
    have hexec := execute_error_from_closed cb t hs
    by_cases h : cb.state.failures + 1 ≥ cb.failure_threshold
    · have hlen : ts.length = 0 := by simp [List.length] at heq; omega
      have hnil : ts = [] := List.length_eq_zero.mp hlen
      subst hnil
      have hstep := handle_failure_trips cb t h
      simp only [applyFailExecs]
      rw [hexec, congrArg Prod.fst hstep]
    · have hstep := handle_failure_below cb t (by omega)
      simp only [applyFailExecs]
      refine ih (cb.execute t (Except.error () : Except Unit Unit)).cb
        (by rw [hexec, hstep]; exact hs) ?_ ?_
      · rw [hexec, hstep]; simp [List.length] at heq ⊢; omega
      · simp [List.length] at heq; omega

/-- C2: for every threshold N at least 1 and fresh breaker, fewer than N
consecutive failure recordings (by handle_failure or by failing execute
calls) leave the state Closed, and exactly N of them leave it Open. -/
theorem fresh_breaker_threshold (N T : Nat) (ts : List Nat) (h : 1 ≤ N) :
    (ts.length < N → (applyFails (CircuitBreaker.new N T) ts).state.state = CircuitState.Closed)
    ∧ (ts.length = N → (applyFails (CircuitBreaker.new N T) ts).state.state = CircuitState.Open)
    ∧ (ts.length < N →
        (applyFailExecs (CircuitBreaker.new N T) ts).state.state = CircuitState.Closed)
    ∧ (ts.length = N →
        (applyFailExecs (CircuitBreaker.new N T) ts).state.state = CircuitState.Open) := by
  refine ⟨fun hlt => ?_, fun heq => ?_, fun hlt => ?_, fun heq => ?_⟩
  · exact (applyFails_below ts (CircuitBreaker.new N T) rfl (by simpa [CircuitBreaker.new])).1
  · exact applyFails_reaches ts (CircuitBreaker.new N T) rfl
      (by simpa [CircuitBreaker.new]) (by omega)
  · exact (applyFailExecs_below ts (CircuitBreaker.new N T) rfl
      (by simpa [CircuitBreaker.new])).1
  · exact applyFailExecs_reaches ts (CircuitBreaker.new N T) rfl
      (by simpa [CircuitBreaker.new]) (by omega)

/-- Witness for C2: with threshold 2, one failure leaves a fresh breaker
Closed and two failures leave it Open, both via handle_failure and via
failing execute calls. -/
theorem fresh_breaker_threshold_witness :
    (applyFails (CircuitBreaker.new 2 100) [3]).state.state = CircuitState.Closed
    ∧ (applyFails (CircuitBreaker.new 2 100) [3, 4]).state.state = CircuitState.Open
    ∧ (applyFailExecs (CircuitBreaker.new 2 100) [3]).state.state = CircuitState.Closed
    ∧ (applyFailExecs (CircuitBreaker.new 2 100) [3, 4]).state.state = CircuitState.Open :=
  ⟨(fresh_breaker_threshold 2 100 [3] (by decide)).1 (by decide),
   (fresh_breaker_threshold 2 100 [3, 4] (by decide)).2.1 (by decide),
   (fresh_breaker_threshold 2 100 [3] (by decide)).2.2.1 (by decide),
   (fresh_breaker_threshold 2 100 [3, 4] (by decide)).2.2.2 (by decide)⟩

/-- Counterexample to C3: on the primary implementation
(src/src/circuit_breaker.rs) with threshold 2, the execute sequence
failure at time 0, success at time 1, failure at time 2 leaves the
failure counter at 1 after the success (not reset to 0) and leaves the
state Open after the third call (not Closed): execute only resets the
counter when the pre-call state was HalfOpen. -/
theorem execute_success_no_reset_counterexample :
    ((((CircuitBreaker.new 2 100).execute 0 (Except.error () : Except Unit Unit)).cb.execute 1
        (Except.ok () : Except Unit Unit)).cb.state.failures = 1)
    ∧ (((((CircuitBreaker.new 2 100).execute 0 (Except.error () : Except Unit Unit)).cb.execute 1
        (Except.ok () : Except Unit Unit)).cb.execute 2
        (Except.error () : Except Unit Unit)).cb.state.state = CircuitState.Open) := by
  decide

/-- C3 amended: in src/src/circuit_breaker.rs a successful execute call
zeroes the failure counter only when the pre-call state was HalfOpen; a
success with pre-call state Closed leaves the breaker entirely
unchanged, so with threshold 2 the sequence failure, success, failure
leaves the state Open.  The near-duplicate in src/src/lib.rs does reset
the counter on every successful execute, and under it the same sequence
leaves the state Closed. -/
theorem execute_success_reset_amended :
    (∀ (cb : CircuitBreaker) (now : Nat),
        cb.state.state = CircuitState.Closed →
        (cb.execute now (Except.ok () : Except Unit Unit)).cb = cb)
    ∧ (∀ (cb : CircuitBreaker) (now : Nat),
        cb.state.state = CircuitState.HalfOpen →
        (cb.execute now (Except.ok () : Except Unit Unit)).cb.state.failures = 0)
    ∧ (∀ (lcb : LibCB.CircuitBreaker) (now : Nat),
        (lcb.execute now (Except.ok () : Except Unit Unit)).result =
          ExecResult.ok () →
        (lcb.execute now (Except.ok () : Except Unit Unit)).cb.state.failures = 0)
    ∧ ((((LibCB.CircuitBreaker.new 2 100).execute 0
          (Except.error () : Except Unit Unit)).cb.execute 1
          (Except.ok () : Except Unit Unit)).cb.state.failures = 0)
    ∧ (((((LibCB.CircuitBreaker.new 2 100).execute 0
          (Except.error () : Except Unit Unit)).cb.execute 1
          (Except.ok () : Except Unit Unit)).cb.execute 2
          (Except.error () : Except Unit Unit)).cb.state.state = CircuitState.Closed) := by
  refine ⟨?_, ?_, ?_, by decide, by decide⟩
  · intro cb now hs
    cases hl : cb.state.last_failure_time <;>
      simp [CircuitBreaker.execute, hs, hl]
  · intro cb now hs
    cases hl : cb.state.last_failure_time <;>
      simp [CircuitBreaker.execute, hs, hl, CircuitBreaker.handle_success, reset]
  · intro lcb now
    cases hs : lcb.state.state with
    | Open =>
      cases hl : lcb.state.last_failure_time with
      | none => simp [LibCB.CircuitBreaker.execute, hs, hl]
      | some t =>
        by_cases hts : lcb.reset_timeout ≤ now - t <;>
          simp [LibCB.CircuitBreaker.execute, hs, hl, hts]
    | Closed =>
      cases hl : lcb.state.last_failure_time <;>
        simp [LibCB.CircuitBreaker.execute, hs, hl]
    | HalfOpen =>
      cases hl : lcb.state.last_failure_time <;>
        simp [LibCB.CircuitBreaker.execute, hs, hl]

/-- Witness for C3 amended: a fresh breaker with one recorded failure
keeps its counter at 1 across a Closed-state success, and a HalfOpen
breaker has its counter zeroed by a success. -/
theorem execute_success_reset_amended_witness :
    ((((CircuitBreaker.new 2 100).handle_failure 0).1.execute 1
        (Except.ok () : Except Unit Unit)).cb =
      ((CircuitBreaker.new 2 100).handle_failure 0).1)
    ∧ (((((CircuitBreaker.new 1 100).handle_failure 0).1.stateOp 150).2.1.execute 151
        (Except.ok () : Except Unit Unit)).cb.state.failures = 0) :=
  ⟨execute_success_reset_amended.1 ((CircuitBreaker.new 2 100).handle_failure 0).1 1 (by decide),
   execute_success_reset_amended.2.1
     (((CircuitBreaker.new 1 100).handle_failure 0).1.stateOp 150).2.1 151 (by decide)⟩

/-- Counterexample to C5: halfOpenZeroFailures is reachable from a fresh
breaker by public operations (threshold 2: two failures, a recorded
success while Open, then a post-timeout state poll), its state is
HalfOpen with on_open registered, yet a single failing execute leaves it
HalfOpen and fires no callback — because the recorded success zeroed the
counter and one new failure stays below the threshold. -/
theorem halfOpen_single_failure_counterexample :
    Reachable halfOpenZeroFailures
    ∧ halfOpenZeroFailures.state.state = CircuitState.HalfOpen
    ∧ halfOpenZeroFailures.state.on_open = true
    ∧ (halfOpenZeroFailures.execute 201 (Except.error () : Except Unit Unit)).cb.state.state =
        CircuitState.HalfOpen
    ∧ (halfOpenZeroFailures.execute 201 (Except.error () : Except Unit Unit)).events = [] := by
  refine ⟨?_, by decide, by decide, by decide, by decide⟩
  exact Reachable.probe 200 (Reachable.succ (Reachable.fail 5 (Reachable.fail 0
    (Reachable.setHalfOpen (Reachable.setOpen (Reachable.new 2 100))))))

/-- C5 amended: from a HalfOpen breaker, a single failing execute call
(equivalently a single handle_failure) transitions back to Open and
fires on_open exactly once, provided the incremented failure counter
reaches the threshold — which holds whenever no success was recorded
since the circuit opened; a reachable HalfOpen breaker whose counter was
zeroed by a success recorded during the Open cooldown stays HalfOpen on
a single failure instead. -/
theorem execute_halfOpen_failure_reopens (cb : CircuitBreaker) (now : Nat)
    (hs : cb.state.state = CircuitState.HalfOpen)
    (hf : cb.state.failures + 1 ≥ cb.failure_threshold)
    (ho : cb.state.on_open = true) :
    (cb.execute now (Except.error () : Except Unit Unit)).cb.state.state = CircuitState.Open
    ∧ (cb.execute now (Except.error () : Except Unit Unit)).events = [CallbackEvent.onOpenEvt]
    ∧ (cb.handle_failure now).1.state.state = CircuitState.Open
    ∧ (cb.handle_failure now).2.1 = [CallbackEvent.onOpenEvt] := by
  cases hl : cb.state.last_failure_time <;>
    simp [CircuitBreaker.execute, hs, hl, CircuitBreaker.handle_failure, hf, trip, ho]

/-- Witness for C5 amended: drive a threshold-1 breaker to HalfOpen with
on_open registered (failure at time 0, poll at time 150); a failing
execute at time 151 re-opens it and fires on_open once. -/
theorem execute_halfOpen_failure_reopens_witness :
    (((((CircuitBreaker.new 1 100).set_on_open.handle_failure 0).1.stateOp 150).2.1.execute 151
        (Except.error () : Except Unit Unit)).cb.state.state = CircuitState.Open)
    ∧ (((((CircuitBreaker.new 1 100).set_on_open.handle_failure 0).1.stateOp 150).2.1.execute 151
        (Except.error () : Except Unit Unit)).events = [CallbackEvent.onOpenEvt]) := by
  have h := execute_halfOpen_failure_reopens
    ((((CircuitBreaker.new 1 100).set_on_open.handle_failure 0).1.stateOp 150).2.1) 151
    (by decide) (by decide) (by decide)
  exact ⟨h.1, h.2.1⟩

/-- Counterexample to C7: with threshold 1 and on_open registered, a
first handle_failure opens the circuit, and a second handle_failure
while the state is already Open invokes on_open again — trip re-fires
the callback on every counter-reaching failure, not at most once per
qualifying transition. -/
theorem handle_failure_open_refires_counterexample :
    (((CircuitBreaker.new 1 100).set_on_open.handle_failure 0).1.state.state =
        CircuitState.Open)
    ∧ ((((CircuitBreaker.new 1 100).set_on_open.handle_failure 0).1.handle_failure 5).2.1 =
        [CallbackEvent.onOpenEvt]) := by
  decide

/-- C7 amended: polling state() while already HalfOpen returns HalfOpen,
leaves the breaker untouched and fires no callback; but handle_failure
while the state is already Open fires on_open again whenever the
incremented counter reaches the threshold, so on_open is not limited to
one invocation per Open transition. -/
theorem callback_idempotence_amended :
    (∀ (cb : CircuitBreaker) (now : Nat), cb.state.state = CircuitState.HalfOpen →
        cb.stateOp now = (CircuitState.HalfOpen, cb, [], []))
    ∧ (∀ (cb : CircuitBreaker) (now : Nat), cb.state.state = CircuitState.Open →
        cb.state.failures + 1 ≥ cb.failure_threshold → cb.state.on_open = true →
        (cb.handle_failure now).1.state.state = CircuitState.Open
        ∧ (cb.handle_failure now).2.1 = [CallbackEvent.onOpenEvt]) := by
  constructor
  · intro cb now hs
    simp [CircuitBreaker.stateOp, hs]
  · intro cb now hs hf ho
    simp [CircuitBreaker.handle_failure, hf, trip, ho]

/-- Witness for C7 amended: a HalfOpen breaker polled twice stays
HalfOpen with no callback, and an Open threshold-1 breaker fires on_open
again on a further handle_failure. -/
theorem callback_idempotence_amended_witness :
    ((((CircuitBreaker.new 1 100).set_on_half_open.handle_failure 0).1.stateOp 150).2.1.stateOp
        160 =
      (CircuitState.HalfOpen,
       (((CircuitBreaker.new 1 100).set_on_half_open.handle_failure 0).1.stateOp 150).2.1,
       [], []))
    ∧ ((((CircuitBreaker.new 1 100).set_on_open.handle_failure 0).1.handle_failure 5).2.1 =
        [CallbackEvent.onOpenEvt]) :=
  ⟨callback_idempotence_amended.1
      ((((CircuitBreaker.new 1 100).set_on_half_open.handle_failure 0).1.stateOp 150).2.1) 160
      (by decide),
   (callback_idempotence_amended.2
      (((CircuitBreaker.new 1 100).set_on_open.handle_failure 0).1) 5
      (by decide) (by decide) (by decide)).2⟩

/-- Helper: handle_failure always records a failure time, so its result
satisfies the Open-has-time invariant outright. -/
theorem openHasTime_handle_failure (cb : CircuitBreaker) (now : Nat) :
    OpenHasTime (cb.handle_failure now).1 := by
  unfold OpenHasTime
  by_cases h : cb.state.failures + 1 ≥ cb.failure_threshold
  · rw [congrArg Prod.fst (handle_failure_trips cb now h)]; simp
  · rw [handle_failure_below cb now (by omega)]; simp

/-- Helper: handle_success preserves the Open-has-time invariant. -/
theorem openHasTime_handle_success (cb : CircuitBreaker) (h : OpenHasTime cb) :
    OpenHasTime cb.handle_success.1 := by
  unfold OpenHasTime at *
  by_cases hho : cb.state.state = CircuitState.HalfOpen
  · simp [CircuitBreaker.handle_success, hho, reset]
  · simp [CircuitBreaker.handle_success, hho]
    exact h

/-- Helper: the state probe preserves the Open-has-time invariant. -/
theorem openHasTime_stateOp (cb : CircuitBreaker) (now : Nat) (h : OpenHasTime cb) :
    OpenHasTime (cb.stateOp now).2.1 := by
  unfold OpenHasTime at *
  cases hs : cb.state.state with
  | Open =>
    cases hl : cb.state.last_failure_time with
    | none => intro _; exact absurd hl (h hs)
    | some t =>
      by_cases hts : now - t ≥ cb.reset_timeout <;>
        simp [CircuitBreaker.stateOp, hs, hl, hts]
  | Closed => simp [CircuitBreaker.stateOp, hs]
  | HalfOpen => simp [CircuitBreaker.stateOp, hs]

/-- Helper: execute preserves the Open-has-time invariant. -/
theorem openHasTime_execute {τ ε : Type} (cb : CircuitBreaker) (now : Nat) (f : Except ε τ)
    (h : OpenHasTime cb) :
    OpenHasTime (cb.execute now f).cb := by
  cases hs : cb.state.state with
  | Closed =>
    cases hl : cb.state.last_failure_time <;> cases f with
    | ok v =>
      have he : (cb.execute now (Except.ok v : Except ε τ)).cb = cb := by
        simp [CircuitBreaker.execute, hs, hl]
      rw [he]; exact h
    | error e =>
      have he : (cb.execute now (Except.error e : Except ε τ)).cb =
          (cb.handle_failure now).1 := by
        simp [CircuitBreaker.execute, hs, hl]
      rw [he]; exact openHasTime_handle_failure cb now
  | HalfOpen =>
    cases hl : cb.state.last_failure_time <;> cases f with
    | ok v =>
      have he : (cb.execute now (Except.ok v : Except ε τ)).cb = cb.handle_success.1 := by
        simp [CircuitBreaker.execute, hs, hl]
      rw [he]; exact openHasTime_handle_success cb h
    | error e =>
      have he : (cb.execute now (Except.error e : Except ε τ)).cb =
          (cb.handle_failure now).1 := by
        simp [CircuitBreaker.execute, hs, hl]
      rw [he]; exact openHasTime_handle_failure cb now
  | Open =>
    cases hl : cb.state.last_failure_time with
    | none =>
      cases f with
      | ok v =>
        have he : (cb.execute now (Except.ok v : Except ε τ)).cb = cb := by
          simp [CircuitBreaker.execute, hs, hl]
        rw [he]; exact h
      | error e =>
        have he : (cb.execute now (Except.error e : Except ε τ)).cb =
            (cb.handle_failure now).1 := by
          simp [CircuitBreaker.execute, hs, hl]
        rw [he]; exact openHasTime_handle_failure cb now
    | some t =>
      by_cases hts : now - t ≥ cb.reset_timeout
      · cases f with
        | ok v =>
          have he : (cb.execute now (Except.ok v : Except ε τ)).cb =
              ({ cb with state := { cb.state with
                  state := CircuitState.HalfOpen } }).handle_success.1 := by
            simp [CircuitBreaker.execute, hs, hl, hts]
          rw [he]
          exact openHasTime_handle_success _ (by intro hcon; simp at hcon)
        | error e =>
          have he : (cb.execute now (Except.error e : Except ε τ)).cb =
              (({ cb with state := { cb.state with
                  state := CircuitState.HalfOpen } }).handle_failure now).1 := by
            simp [CircuitBreaker.execute, hs, hl, hts]
          rw [he]; exact openHasTime_handle_failure _ now
      · have he : (cb.execute now f).cb = cb := by
          cases f <;> simp [CircuitBreaker.execute, hs, hl, hts]
        rw [he]; exact h

/-- Helper: the Open-has-time invariant holds of every reachable
breaker, by induction over the public operations. -/
theorem reachable_openHasTime (cb : CircuitBreaker) (h : Reachable cb) : OpenHasTime cb := by
  induction h with
  | new n t => intro hcon; simp [CircuitBreaker.new] at hcon
  | exec now f _ ih => exact openHasTime_execute _ now f ih
  | probe now _ ih => exact openHasTime_stateOp _ now ih
  | fail now _ _ => exact openHasTime_handle_failure _ now
  | succ _ ih => exact openHasTime_handle_success _ ih
  | setOpen _ ih => simpa [OpenHasTime, CircuitBreaker.set_on_open] using ih
  | setClose _ ih => simpa [OpenHasTime, CircuitBreaker.set_on_close] using ih
  | setHalfOpen _ ih => simpa [OpenHasTime, CircuitBreaker.set_on_half_open] using ih

/-- C8: every breaker reachable from a fresh construction through the
public operations satisfies the invariant that an Open state carries a
recorded last failure time; the execute branch for Open with no recorded
time is therefore never taken on reachable breakers. -/
theorem reachable_open_has_failure_time (cb : CircuitBreaker) (h : Reachable cb)
    (hs : cb.state.state = CircuitState.Open) :
    cb.state.last_failure_time ≠ none :=
  reachable_openHasTime cb h hs

/-- Witness for C8: the breaker obtained from new 1 100 by one
handle_failure at time 5 is reachable and Open, and indeed carries a
recorded failure time. -/
theorem reachable_open_has_failure_time_witness :
    ((CircuitBreaker.new 1 100).handle_failure 5).1.state.last_failure_time ≠ none :=
  reachable_open_has_failure_time ((CircuitBreaker.new 1 100).handle_failure 5).1
    (Reachable.fail 5 (Reachable.new 1 100)) (by decide)

/-- Helper: noOTCfrom splits across an append, with the continuation
anchored at the last written value. -/
theorem noOTCfrom_append (ys : List CircuitState) :
    ∀ (xs : List CircuitState) (prev : CircuitState),
    noOTCfrom prev (xs ++ ys) = (noOTCfrom prev xs && noOTCfrom (lastW prev xs) ys) := by
  intro xs
  induction xs with
  | nil => intro prev; simp [noOTCfrom, lastW]
  | cons x xs ih =>
    intro prev
    simp [noOTCfrom, lastW, ih, Bool.and_assoc]

/-- Helper: the state-field assignments of handle_failure never step
from Open directly to Closed, and end at the resulting state. -/
theorem handle_failure_writes_ok (cb : CircuitBreaker) (now : Nat) :
    noOTCfrom cb.state.state (cb.handle_failure now).2.2 = true
    ∧ lastW cb.state.state (cb.handle_failure now).2.2 =
        (cb.handle_failure now).1.state.state := by
  by_cases h : cb.state.failures + 1 ≥ cb.failure_threshold
  · rw [handle_failure_trips cb now h]
    simp [noOTCfrom, okStep, lastW]
  · have h2 : ¬ (cb.state.failures + 1 ≥ cb.failure_threshold) := h
    constructor <;> simp [CircuitBreaker.handle_failure, h2, noOTCfrom, lastW]

/-- Helper: the state-field assignments of handle_success never step
from Open directly to Closed (its Closed write only happens from
HalfOpen), and end at the resulting state. -/
theorem handle_success_writes_ok (cb : CircuitBreaker) :
    noOTCfrom cb.state.state cb.handle_success.2.2 = true
    ∧ lastW cb.state.state cb.handle_success.2.2 = cb.handle_success.1.state.state := by
  by_cases hho : cb.state.state = CircuitState.HalfOpen
  · constructor <;>
      simp [CircuitBreaker.handle_success, hho, reset, noOTCfrom, okStep, lastW]
  · constructor <;> simp [CircuitBreaker.handle_success, hho, noOTCfrom, lastW]

/-- Helper: the state-field assignments of the state probe never step
from Open directly to Closed, and end at the resulting state. -/
theorem stateOp_writes_ok (cb : CircuitBreaker) (now : Nat) :
    noOTCfrom cb.state.state (cb.stateOp now).2.2.2 = true
    ∧ lastW cb.state.state (cb.stateOp now).2.2.2 = (cb.stateOp now).2.1.state.state := by
  cases hs : cb.state.state with
  | Open =>
    cases hl : cb.state.last_failure_time with
    | none => simp [CircuitBreaker.stateOp, hs, hl, noOTCfrom, lastW]
    | some t =>
      by_cases hts : now - t ≥ cb.reset_timeout <;>
        simp [CircuitBreaker.stateOp, hs, hl, hts, noOTCfrom, okStep, lastW]
  | Closed => simp [CircuitBreaker.stateOp, hs, noOTCfrom, lastW]
  | HalfOpen => simp [CircuitBreaker.stateOp, hs, noOTCfrom, lastW]

/-- Helper: the state-field assignments of execute never step from Open
directly to Closed, and end at the resulting state. -/
theorem execute_writes_ok {τ ε : Type} (cb : CircuitBreaker) (now : Nat) (f : Except ε τ) :
    noOTCfrom cb.state.state (cb.execute now f).writes = true
    ∧ lastW cb.state.state (cb.execute now f).writes = (cb.execute now f).cb.state.state := by
  cases hs : cb.state.state with
  | Closed =>
    cases hl : cb.state.last_failure_time <;> cases f <;>
      by_cases htrip : cb.state.failures + 1 ≥ cb.failure_threshold <;>
      constructor <;>
      simp [CircuitBreaker.execute, hs, hl, htrip, CircuitBreaker.handle_failure,
        CircuitBreaker.handle_success, trip, reset, noOTCfrom, okStep, lastW]
  | HalfOpen =>
    cases hl : cb.state.last_failure_time <;> cases f <;>
      by_cases htrip : cb.state.failures + 1 ≥ cb.failure_threshold <;>
      constructor <;>
      simp [CircuitBreaker.execute, hs, hl, htrip, CircuitBreaker.handle_failure,
        CircuitBreaker.handle_success, trip, reset, noOTCfrom, okStep, lastW]
  | Open =>
    cases hl : cb.state.last_failure_time with
    | none =>
      cases f <;>
        by_cases htrip : cb.state.failures + 1 ≥ cb.failure_threshold <;>
        constructor <;>
        simp [CircuitBreaker.execute, hs, hl, htrip, CircuitBreaker.handle_failure,
          CircuitBreaker.handle_success, trip, reset, noOTCfrom, okStep, lastW]
    | some t =>
      by_cases hts : now - t ≥ cb.reset_timeout <;> cases f <;>
        by_cases htrip : cb.state.failures + 1 ≥ cb.failure_threshold <;>
        constructor <;>
        simp [CircuitBreaker.execute, hs, hl, hts, htrip, CircuitBreaker.handle_failure,
          CircuitBreaker.handle_success, trip, reset, noOTCfrom, okStep, lastW]

/-- Helper: the state-field assignments of every public operation avoid an
Open-to-Closed step and end at the resulting state. -/
theorem applyOp_writes_ok (cb : CircuitBreaker) (o : Op) :
    noOTCfrom cb.state.state (applyOp cb o).2.2 = true
    ∧ lastW cb.state.state (applyOp cb o).2.2 = (applyOp cb o).1.state.state := by
  cases o with
  | exec now f => exact execute_writes_ok cb now f
  | probe now => exact stateOp_writes_ok cb now
  | fail now => exact handle_failure_writes_ok cb now
  | succ => exact handle_success_writes_ok cb
  | setOpen =>
    constructor <;> simp [applyOp, CircuitBreaker.set_on_open, noOTCfrom, lastW]
  | setClose =>
    constructor <;> simp [applyOp, CircuitBreaker.set_on_close, noOTCfrom, lastW]
  | setHalfOpen =>
    constructor <;> simp [applyOp, CircuitBreaker.set_on_half_open, noOTCfrom, lastW]

/-- C9: along any sequence of public operations from any breaker, the
full trajectory of values taken by the state field never has Closed
immediately after Open — Open only ever steps to HalfOpen (or is
re-asserted Open), so any Closed following an Open went through HalfOpen
in between. -/
theorem state_field_never_jumps_open_to_closed (ops : List Op) : ∀ cb : CircuitBreaker,
    noOpenToClosed (cb.state.state :: runWrites cb ops) = true := by
  induction ops with
  | nil => intro cb; simp [runWrites, noOpenToClosed, noOTCfrom]
  | cons o os ih =>
    intro cb
    have h := applyOp_writes_ok cb o
    simp only [runWrites, noOpenToClosed] at *
    rw [noOTCfrom_append, h.2]
    simp [h.1]
    exact ih (applyOp cb o).1

/-- C10: handle_success on an Open breaker zeroes the failure counter
and changes nothing else — the state stays Open, the last failure time
and callback slots are untouched, and no callback fires. -/
theorem handle_success_open_frame (cb : CircuitBreaker)
    (h : cb.state.state = CircuitState.Open) :
    cb.handle_success = ({ cb with state := { cb.state with failures := 0 } }, [], []) := by
  simp [CircuitBreaker.handle_success, h]

/-- Witness for C10: a breaker opened at time 0 (threshold 1) keeps
state Open and its recorded failure time across handle_success, with the
counter zeroed and no callback fired. -/
theorem handle_success_open_frame_witness :
    ((CircuitBreaker.new 1 100).set_on_close.handle_failure 0).1.handle_success =
      ({ ((CircuitBreaker.new 1 100).set_on_close.handle_failure 0).1 with
          state := { ((CircuitBreaker.new 1 100).set_on_close.handle_failure 0).1.state with
                      failures := 0 } }, [], []) :=
  handle_success_open_frame ((CircuitBreaker.new 1 100).set_on_close.handle_failure 0).1
    (by decide)

end CB
